import Mathlib

set_option maxRecDepth 10000

/-!
Shallow embedding of the core simulation logic of
`src/components/ConferenceRoom.tsx` (seat-chase simulator).

The repository file contains two near-identical evolutions of the same
component; the definitions below follow the final evolution (the one with
chair scores and randomized axis order, `GRID_ROWS = 15`).  The earlier
evolution's `moveNPC` coincides with the final one specialized to
"horizontal first".

Randomness (`Math.random`) is made explicit: every random draw is a
parameter (a `Bool` for the 50/50 axis-order draw, a `List Direction` for
the shuffled fallback order, and per-attendee families of such draws for a
whole tick).  React state updates are modeled as pure state passing on a
`WorldState` record; during an NPC batch the validity checks read the grid
and roster captured before the batch, exactly as the closures in the source
do.
-/

namespace SeatChase

/-- `type Position = { x: number; y: number }`. -/
structure Position where
  x : Int
  y : Int
deriving DecidableEq, Repr

/-- `type Direction = 'up' | 'down' | 'left' | 'right'`. -/
inductive Direction where
  | up
  | down
  | left
  | right
deriving DecidableEq, Repr

/-- `type AttendeeType` (the `color` field is rendering-only data). -/
structure AttendeeType where
  id : Nat
  position : Position
  color : String
  isSeated : Bool
  targetSeat : Option Position
  nextMove : Option Nat
deriving DecidableEq, Repr

/-- `type CellType` (final evolution, including `'sign'`). -/
inductive CellType where
  | empty
  | chair
  | wall
  | hallway
  | aisle
  | carpet
  | podium
  | rowAisle
  | sign
deriving DecidableEq, Repr

/-- `type GridCell`. -/
structure GridCell where
  type : CellType
  occupiedBy : Option Nat
  isChair : Option Bool
  chairId : Option Nat
  text : Option String
  score : Option Int
deriving DecidableEq, Repr

abbrev Grid := List (List GridCell)

def GRID_ROWS : Int := 15
def GRID_COLS : Int := 30
def TOTAL_ATTENDEES : Nat := 48
def PLAYER_ID : Nat := 0
def MOVE_INTERVAL : Nat := 1000

/-- The value a fresh `GridCell` would have before any field is assigned. -/
def defaultCell : GridCell :=
  { type := CellType.empty, occupiedBy := none, isChair := none,
    chairId := none, text := none, score := none }

/-- `grid[y][x]`: 2D array indexing.  All reads in the source are guarded by
bounds checks, so the default is never observed on the real grid. -/
def cellAt (g : Grid) (y x : Int) : GridCell :=
  (g.getD y.toNat []).getD x.toNat defaultCell

/-- `grid[y][x] = f grid[y][x]`: 2D array element assignment (the source
only ever assigns at non-negative, in-range indices). -/
def modifyCell (g : Grid) (y x : Int) (f : GridCell → GridCell) : Grid :=
  if 0 ≤ y ∧ 0 ≤ x then
    g.set y.toNat ((g.getD y.toNat []).set x.toNat (f (cellAt g y x)))
  else g

/-- In-bounds test used throughout the source
(`y < 0 || y >= GRID_ROWS || x < 0 || x >= GRID_COLS`, negated). -/
def inBounds (p : Position) : Prop :=
  0 ≤ p.y ∧ p.y < GRID_ROWS ∧ 0 ≤ p.x ∧ p.x < GRID_COLS

instance (p : Position) : Decidable (inBounds p) := by
  unfold inBounds; infer_instance

/-- First half of `updateGridOccupation`: clear every cell's `occupiedBy`. -/
def clearOccupation (g : Grid) : Grid :=
  g.map (fun row => row.map (fun cell => { cell with occupiedBy := none }))

/-- Loop body of `updateGridOccupation`: mark one attendee's cell occupied. -/
def markOccupied (g : Grid) (a : AttendeeType) : Grid :=
  if inBounds a.position then
    modifyCell g a.position.y a.position.x
      (fun cell => { cell with occupiedBy := some a.id })
  else g

/-- `updateGridOccupation`: rebuild the occupancy index from scratch out of
the attendee roster (later attendees overwrite earlier ones on conflict). -/
def updateGridOccupation (g : Grid) (newAttendees : List AttendeeType) : Grid :=
  newAttendees.foldl markOccupied (clearOccupation g)

/-- `isValidMove(attendeeId, position)`.  The grid and roster it consults are
explicit arguments (the source reads them from the enclosing closure). -/
def isValidMove (grid : Grid) (attendees : List AttendeeType)
    (attendeeId : Nat) (position : Position) : Bool :=
  if position.y < 0 ∨ GRID_ROWS ≤ position.y ∨
      position.x < 0 ∨ GRID_COLS ≤ position.x then
    false
  else if (cellAt grid position.y position.x).type = CellType.wall then
    false
  else if (cellAt grid position.y position.x).occupiedBy.isSome ∧
      (cellAt grid position.y position.x).occupiedBy ≠ some attendeeId then
    false
  else if attendeeId = PLAYER_ID ∧
      (cellAt grid position.y position.x).type = CellType.chair then
    true
  else if attendeeId ≠ PLAYER_ID ∧
      (cellAt grid position.y position.x).type = CellType.chair then
    match attendees.find? (fun a => a.id = attendeeId) with
    | none => false
    | some a =>
      match a.targetSeat with
      | none => false
      | some t => decide (t.x = position.x ∧ t.y = position.y)
  else
    true

/-- `getNewPosition(position, direction)`. -/
def getNewPosition (position : Position) (direction : Direction) : Position :=
  match direction with
  | Direction.up => { x := position.x, y := position.y - 1 }
  | Direction.down => { x := position.x, y := position.y + 1 }
  | Direction.left => { x := position.x - 1, y := position.y }
  | Direction.right => { x := position.x + 1, y := position.y }

/-- The horizontal primary-axis attempt inside `moveNPC`: returns the moved
attendee when `dx !== 0` and the step is legal. -/
def tryMoveX (grid : Grid) (atts : List AttendeeType) (a : AttendeeType)
    (dx : Int) : Option AttendeeType :=
  if dx ≠ 0 then
    let p : Position := { x := a.position.x + dx, y := a.position.y }
    if isValidMove grid atts a.id p then
      some { a with position := p }
    else none
  else none

/-- The vertical primary-axis attempt inside `moveNPC`. -/
def tryMoveY (grid : Grid) (atts : List AttendeeType) (a : AttendeeType)
    (dy : Int) : Option AttendeeType :=
  if dy ≠ 0 then
    let p : Position := { x := a.position.x, y := a.position.y + dy }
    if isValidMove grid atts a.id p then
      some { a with position := p }
    else none
  else none

/-- `moveNPC(attendee)` of the final evolution.  `hFirst` is the draw of
`Math.random() > 0.5` (horizontal-first when `true`), `dirs` the shuffled
copy of `['up','down','left','right']` used by the fallback loop.  The
earlier evolution is this function with `hFirst := true`. -/
def moveNPC (grid : Grid) (atts : List AttendeeType) (hFirst : Bool)
    (dirs : List Direction) (a : AttendeeType) : AttendeeType :=
  if a.isSeated then a
  else
    match a.targetSeat with
    | none => a
    | some target =>
      if a.position = target then
        { a with isSeated := true }
      else
        let dx := (target.x - a.position.x).sign
        let dy := (target.y - a.position.y).sign
        let primary :=
          if hFirst then
            (tryMoveX grid atts a dx).orElse (fun _ => tryMoveY grid atts a dy)
          else
            (tryMoveY grid atts a dy).orElse (fun _ => tryMoveX grid atts a dx)
        match primary with
        | some a' => a'
        | none =>
          match dirs.find?
              (fun d => isValidMove grid atts a.id (getNewPosition a.position d)) with
          | some d => { a with position := getNewPosition a.position d }
          | none => a

/-- The condition of the per-attendee branch of `updateClock`:
`attendee.id !== PLAYER_ID && !attendee.isSeated && attendee.nextMove &&
attendee.nextMove <= now`. -/
def npcDue (now : Nat) (a : AttendeeType) : Bool :=
  decide (a.id ≠ PLAYER_ID) && !a.isSeated &&
    (match a.nextMove with
     | some t => decide (t ≤ now)
     | none => false)

/-- The whole mutable component state touched by the claims (React
`useState` hooks of the component). -/
structure WorldState where
  grid : Grid
  attendees : List AttendeeType
  gameOver : Bool
  playerSeated : Bool
  movesCount : Nat
deriving Repr

/-- The per-attendee branch of the `updateClock` roster map: a due NPC gets
its `nextMove` stamp refreshed and is moved by `moveNPC`, whose validity
checks read the grid and roster captured before the batch (`g`, `atts`). -/
def batchStep (g : Grid) (atts : List AttendeeType) (now : Nat)
    (hF : Nat → Bool) (dirs : Nat → List Direction) (a : AttendeeType) :
    AttendeeType :=
  if npcDue now a then
    moveNPC g atts (hF a.id) (dirs a.id)
      { a with nextMove := some (now + MOVE_INTERVAL) }
  else a

/-- The NPC move batch of one `updateClock` frame: each due NPC is moved by
`moveNPC` against the pre-batch grid and roster, and the occupancy index is
rebuilt afterwards when anything moved.  `hF` and `dirs` give each attendee
its random draws. -/
def npcBatch (s : WorldState) (now : Nat) (hF : Nat → Bool)
    (dirs : Nat → List Direction) : WorldState :=
  if s.attendees.any (npcDue now) then
    { s with
      attendees := s.attendees.map (batchStep s.grid s.attendees now hF dirs),
      grid := updateGridOccupation s.grid
        (s.attendees.map (batchStep s.grid s.attendees now hF dirs)) }
  else s

/-- One `updateClock` animation frame while the game is running: the NPC
batch, then the all-seated check.  The check reads the roster captured at
effect setup, i.e. the pre-batch roster; once `gameOver` is set the effect
is no longer installed, so the frame is the identity. -/
def updateClockFrame (s : WorldState) (now : Nat) (hF : Nat → Bool)
    (dirs : Nat → List Direction) : WorldState :=
  if s.gameOver then s
  else if s.attendees.all (fun a => a.isSeated) then
    { npcBatch s now hF dirs with gameOver := true }
  else npcBatch s now hF dirs

/-- The applied branch of `movePlayer`: move the player to `newPosition`,
clear the old occupancy cell (when it lists the player), mark the new one,
seat the player when the cell is a chair, and bump the move counter. -/
def movePlayerApply (s : WorldState) (player : AttendeeType)
    (newPosition : Position) : WorldState :=
  { s with
    attendees := s.attendees.map (fun a =>
      if a.id = PLAYER_ID then
        { a with position := newPosition,
                 isSeated :=
                   if (cellAt s.grid newPosition.y newPosition.x).type = CellType.chair
                   then true else a.isSeated }
      else a),
    grid := modifyCell
      (if (cellAt s.grid player.position.y player.position.x).occupiedBy
          = some PLAYER_ID then
        modifyCell s.grid player.position.y player.position.x
          (fun c => { c with occupiedBy := none })
      else s.grid)
      newPosition.y newPosition.x (fun c => { c with occupiedBy := some PLAYER_ID }),
    playerSeated :=
      if (cellAt s.grid newPosition.y newPosition.x).type = CellType.chair
      then true else s.playerSeated,
    movesCount := s.movesCount + 1 }

/-- `movePlayer(direction)`: the user move.  Applies one validated step and
its occupancy/seating/counter updates; otherwise leaves everything as is. -/
def movePlayer (s : WorldState) (direction : Direction) : WorldState :=
  if s.gameOver ∨ s.playerSeated then s
  else
    match s.attendees.find? (fun a => a.id = PLAYER_ID) with
    | none => s
    | some player =>
      if isValidMove s.grid s.attendees PLAYER_ID
          (getNewPosition player.position direction) then
        movePlayerApply s player (getNewPosition player.position direction)
      else s

/-- `calculateChairScore(row)` (final evolution, `GRID_ROWS = 15`);
`Math.round` is rounding half toward positive infinity, as `round` on `ℚ`. -/
def calculateChairScore (row : Int) : Int :=
  let maxScore : ℚ := 500
  let minScore : ℚ := 100
  let normalizedRow : ℚ := ((GRID_ROWS : ℚ) - (row : ℚ)) / (GRID_ROWS : ℚ)
  round (minScore + normalizedRow * (maxScore - minScore))

/-- Modelled from the spec: the alternative way §8 of the spec writes the
seat score, `500·(totalRows-row)/totalRows + 100·(1-(totalRows-row)/totalRows)`,
used to compare the implementation against the spec formula. -/
def chairScoreSpec (row : Int) : Int :=
  round ((500 : ℚ) * ((15 - (row : ℚ)) / 15) + 100 * (1 - (15 - (row : ℚ)) / 15))

/-- The exact-match property between the occupancy index and the attendee
roster: every in-bounds cell is marked occupied by an attendee actually
standing there, and every attendee's cell is marked occupied by it. -/
def occupancyMatches (g : Grid) (atts : List AttendeeType) : Prop :=
  ∀ y : Nat, y < GRID_ROWS.toNat → ∀ x : Nat, x < GRID_COLS.toNat →
    ((cellAt g y x).occupiedBy = none ∨
      ∃ a ∈ atts, (cellAt g y x).occupiedBy = some a.id ∧
        a.position = { x := (x : Int), y := (y : Int) }) ∧
    (∀ a ∈ atts, a.position = { x := (x : Int), y := (y : Int) } →
      (cellAt g y x).occupiedBy = some a.id)

instance (g : Grid) (atts : List AttendeeType) :
    Decidable (occupancyMatches g atts) := by
  unfold occupancyMatches; infer_instance

/-- Shape of every grid the component builds: `GRID_ROWS` rows of
`GRID_COLS` cells. -/
def gridWF (g : Grid) : Prop :=
  g.length = GRID_ROWS.toNat ∧ ∀ row ∈ g, row.length = GRID_COLS.toNat

instance (g : Grid) : Decidable (gridWF g) := by
  unfold gridWF; infer_instance

/-! Concrete fixtures: small hand-built states on the component's 15×30
grid, used to evaluate the definitions at explicit inputs. -/

/-- A 15×30 grid that is carpet everywhere (every cell of the real grid
that agents walk on behaves like these for movement purposes). -/
def baseCarpetGrid : Grid :=
  List.replicate GRID_ROWS.toNat
    (List.replicate GRID_COLS.toNat { defaultCell with type := CellType.carpet })

/-- The fallback direction list in source order, before shuffling. -/
def exDirs : List Direction :=
  [Direction.up, Direction.down, Direction.left, Direction.right]

/-- An NPC one step west of the cell `(4,2)`, headed east to `(5,2)`. -/
def npcA : AttendeeType :=
  { id := 1, position := { x := 3, y := 2 }, color := "bg-yellow-400",
    isSeated := false, targetSeat := some { x := 5, y := 2 }, nextMove := some 0 }

/-- An NPC one step north of the cell `(4,2)`, headed south to `(4,5)`. -/
def npcB : AttendeeType :=
  { id := 2, position := { x := 4, y := 1 }, color := "bg-yellow-400",
    isSeated := false, targetSeat := some { x := 4, y := 5 }, nextMove := some 0 }

def exAtts : List AttendeeType := [npcA, npcB]

/-- A consistent world state in which `npcA` and `npcB` are both due to
move and both greedy steps point into the free cell `(4,2)`. -/
def exState : WorldState :=
  { grid := updateGridOccupation baseCarpetGrid exAtts,
    attendees := exAtts, gameOver := false, playerSeated := false,
    movesCount := 0 }

/-- The NPC batch of one tick applied to `exState` at time `0`. -/
def exBatch : WorldState :=
  npcBatch exState 0 (fun _ => true) (fun _ => exDirs)

/-- The user agent, standing on free carpet. -/
def player0 : AttendeeType :=
  { id := PLAYER_ID, position := { x := 2, y := 1 }, color := "bg-green-500",
    isSeated := false, targetSeat := none, nextMove := some 1000 }

/-- An NPC already seated on its target seat. -/
def npcW : AttendeeType :=
  { id := 3, position := { x := 5, y := 5 }, color := "bg-yellow-400",
    isSeated := true, targetSeat := some { x := 5, y := 5 }, nextMove := some 0 }

def wAtts : List AttendeeType := [player0, npcW]

/-- A consistent world state with the user agent and one seated NPC. -/
def wState : WorldState :=
  { grid := updateGridOccupation baseCarpetGrid wAtts,
    attendees := wAtts, gameOver := false, playerSeated := false,
    movesCount := 0 }

/-- The user agent standing in the top-left corner cell. -/
def playerEdge : AttendeeType :=
  { id := PLAYER_ID, position := { x := 0, y := 0 }, color := "bg-green-500",
    isSeated := false, targetSeat := none, nextMove := some 1000 }

/-- A state in which the user's `up` move would leave the grid. -/
def pState : WorldState :=
  { grid := updateGridOccupation baseCarpetGrid [playerEdge],
    attendees := [playerEdge], gameOver := false, playerSeated := false,
    movesCount := 0 }

/-- A running state in which every attendee is seated. -/
def allState : WorldState :=
  { grid := updateGridOccupation baseCarpetGrid [npcW],
    attendees := [npcW], gameOver := false, playerSeated := false,
    movesCount := 0 }

end SeatChase

/-! Helper lemmas about the embedded operations. -/

namespace SeatChase

set_option maxRecDepth 10000

lemma sign_vals (n : Int) : n.sign = 0 ∨ n.sign = 1 ∨ n.sign = -1 := by
  rcases n with (_ | k) | k
  · exact Or.inl rfl
  · exact Or.inr (Or.inl rfl)
  · exact Or.inr (Or.inr rfl)

lemma tryMoveX_some (g : Grid) (atts : List AttendeeType) (a : AttendeeType)
    (dx : Int) (hdx : dx ≠ 0)
    (hv : isValidMove g atts a.id { x := a.position.x + dx, y := a.position.y } = true) :
    tryMoveX g atts a dx =
      some { a with position := { x := a.position.x + dx, y := a.position.y } } := by
  unfold tryMoveX
  rw [if_pos hdx, if_pos hv]

lemma tryMoveX_none (g : Grid) (atts : List AttendeeType) (a : AttendeeType)
    (dx : Int)
    (h : ¬(dx ≠ 0 ∧ isValidMove g atts a.id
      { x := a.position.x + dx, y := a.position.y } = true)) :
    tryMoveX g atts a dx = none := by
  unfold tryMoveX
  by_cases hdx : dx = 0
  · rw [if_neg (by simpa using hdx)]
  · rw [if_pos hdx, if_neg ?_]
    intro hv
    exact h ⟨hdx, hv⟩

lemma tryMoveY_some (g : Grid) (atts : List AttendeeType) (a : AttendeeType)
    (dy : Int) (hdy : dy ≠ 0)
    (hv : isValidMove g atts a.id { x := a.position.x, y := a.position.y + dy } = true) :
    tryMoveY g atts a dy =
      some { a with position := { x := a.position.x, y := a.position.y + dy } } := by
  unfold tryMoveY
  rw [if_pos hdy, if_pos hv]

lemma tryMoveY_none (g : Grid) (atts : List AttendeeType) (a : AttendeeType)
    (dy : Int)
    (h : ¬(dy ≠ 0 ∧ isValidMove g atts a.id
      { x := a.position.x, y := a.position.y + dy } = true)) :
    tryMoveY g atts a dy = none := by
  unfold tryMoveY
  by_cases hdy : dy = 0
  · rw [if_neg (by simpa using hdy)]
  · rw [if_pos hdy, if_neg ?_]
    intro hv
    exact h ⟨hdy, hv⟩

lemma moveNPC_at_target (g : Grid) (atts : List AttendeeType) (hF : Bool)
    (dirs : List Direction) (a : AttendeeType) (t : Position)
    (hs : a.isSeated = false) (ht : a.targetSeat = some t) (heq : a.position = t) :
    moveNPC g atts hF dirs a = { a with isSeated := true } := by
  unfold moveNPC
  simp only [hs, ht, Bool.false_eq_true, if_false]
  rw [if_pos heq]

lemma moveNPC_h_first_x (g : Grid) (atts : List AttendeeType)
    (dirs : List Direction) (a : AttendeeType) (t : Position)
    (hs : a.isSeated = false) (ht : a.targetSeat = some t) (hne : a.position ≠ t)
    (hx : (t.x - a.position.x).sign ≠ 0 ∧ isValidMove g atts a.id
      { x := a.position.x + (t.x - a.position.x).sign, y := a.position.y } = true) :
    moveNPC g atts true dirs a = { a with position :=
      { x := a.position.x + (t.x - a.position.x).sign, y := a.position.y } } := by
  unfold moveNPC
  simp only [hs, ht, Bool.false_eq_true, if_false]
  rw [if_neg hne, tryMoveX_some g atts a _ hx.1 hx.2]
  simp [Option.orElse, hs, ht]

lemma moveNPC_h_first_y (g : Grid) (atts : List AttendeeType)
    (dirs : List Direction) (a : AttendeeType) (t : Position)
    (hs : a.isSeated = false) (ht : a.targetSeat = some t) (hne : a.position ≠ t)
    (hx : ¬((t.x - a.position.x).sign ≠ 0 ∧ isValidMove g atts a.id
      { x := a.position.x + (t.x - a.position.x).sign, y := a.position.y } = true))
    (hy : (t.y - a.position.y).sign ≠ 0 ∧ isValidMove g atts a.id
      { x := a.position.x, y := a.position.y + (t.y - a.position.y).sign } = true) :
    moveNPC g atts true dirs a = { a with position :=
      { x := a.position.x, y := a.position.y + (t.y - a.position.y).sign } } := by
  unfold moveNPC
  simp only [hs, ht, Bool.false_eq_true, if_false]
  rw [if_neg hne, tryMoveX_none g atts a _ hx, tryMoveY_some g atts a _ hy.1 hy.2]
  simp [Option.orElse, hs, ht]

lemma moveNPC_v_first_y (g : Grid) (atts : List AttendeeType)
    (dirs : List Direction) (a : AttendeeType) (t : Position)
    (hs : a.isSeated = false) (ht : a.targetSeat = some t) (hne : a.position ≠ t)
    (hy : (t.y - a.position.y).sign ≠ 0 ∧ isValidMove g atts a.id
      { x := a.position.x, y := a.position.y + (t.y - a.position.y).sign } = true) :
    moveNPC g atts false dirs a = { a with position :=
      { x := a.position.x, y := a.position.y + (t.y - a.position.y).sign } } := by
  unfold moveNPC
  simp only [hs, ht, Bool.false_eq_true, if_false]
  rw [if_neg hne, tryMoveY_some g atts a _ hy.1 hy.2]
  simp [Option.orElse, hs, ht]

lemma moveNPC_v_first_x (g : Grid) (atts : List AttendeeType)
    (dirs : List Direction) (a : AttendeeType) (t : Position)
    (hs : a.isSeated = false) (ht : a.targetSeat = some t) (hne : a.position ≠ t)
    (hy : ¬((t.y - a.position.y).sign ≠ 0 ∧ isValidMove g atts a.id
      { x := a.position.x, y := a.position.y + (t.y - a.position.y).sign } = true))
    (hx : (t.x - a.position.x).sign ≠ 0 ∧ isValidMove g atts a.id
      { x := a.position.x + (t.x - a.position.x).sign, y := a.position.y } = true) :
    moveNPC g atts false dirs a = { a with position :=
      { x := a.position.x + (t.x - a.position.x).sign, y := a.position.y } } := by
  unfold moveNPC
  simp only [hs, ht, Bool.false_eq_true, if_false]
  rw [if_neg hne, tryMoveY_none g atts a _ hy, tryMoveX_some g atts a _ hx.1 hx.2]
  simp [Option.orElse, hs, ht]

lemma moveNPC_fallback (g : Grid) (atts : List AttendeeType) (hF : Bool)
    (dirs : List Direction) (a : AttendeeType) (t : Position)
    (hs : a.isSeated = false) (ht : a.targetSeat = some t) (hne : a.position ≠ t)
    (hx : ¬((t.x - a.position.x).sign ≠ 0 ∧ isValidMove g atts a.id
      { x := a.position.x + (t.x - a.position.x).sign, y := a.position.y } = true))
    (hy : ¬((t.y - a.position.y).sign ≠ 0 ∧ isValidMove g atts a.id
      { x := a.position.x, y := a.position.y + (t.y - a.position.y).sign } = true)) :
    moveNPC g atts hF dirs a =
      (match dirs.find? (fun d =>
          isValidMove g atts a.id (getNewPosition a.position d)) with
        | some d => { a with position := getNewPosition a.position d }
        | none => a) := by
  unfold moveNPC
  simp only [hs, ht, Bool.false_eq_true, if_false]
  rw [if_neg hne, tryMoveX_none g atts a _ hx, tryMoveY_none g atts a _ hy]
  cases hF <;> simp [Option.orElse]

lemma xstep_is_dir_step (a : AttendeeType) (t : Position)
    (h : (t.x - a.position.x).sign ≠ 0) :
    ∃ d : Direction,
      ({ x := a.position.x + (t.x - a.position.x).sign, y := a.position.y } : Position) =
        getNewPosition a.position d := by
  rcases sign_vals (t.x - a.position.x) with h0 | h1 | h1
  · exact absurd h0 h
  · exact ⟨Direction.right, by simp [getNewPosition, h1]⟩
  · exact ⟨Direction.left, by simp [getNewPosition, h1]; omega⟩

lemma ystep_is_dir_step (a : AttendeeType) (t : Position)
    (h : (t.y - a.position.y).sign ≠ 0) :
    ∃ d : Direction,
      ({ x := a.position.x, y := a.position.y + (t.y - a.position.y).sign } : Position) =
        getNewPosition a.position d := by
  rcases sign_vals (t.y - a.position.y) with h0 | h1 | h1
  · exact absurd h0 h
  · exact ⟨Direction.down, by simp [getNewPosition, h1]⟩
  · exact ⟨Direction.up, by simp [getNewPosition, h1]; omega⟩

lemma npcChairCond (atts : List AttendeeType) (id : Nat) (p : Position) :
    ((match atts.find? (fun a => a.id = id) with
      | none => false
      | some a =>
        match a.targetSeat with
        | none => false
        | some t => decide (t.x = p.x ∧ t.y = p.y)) = true) ↔
      ∃ a, atts.find? (fun a' => a'.id = id) = some a ∧ a.targetSeat = some p := by
  constructor
  · intro h
    split at h
    · exact absurd h (by decide)
    · next a hfind =>
      split at h
      · exact absurd h (by decide)
      · next t hts =>
        rw [decide_eq_true_eq] at h
        refine ⟨a, hfind, ?_⟩
        rw [hts]
        congr 1
        cases t
        cases p
        simp only [Position.mk.injEq]
        exact ⟨h.1, h.2⟩
  · rintro ⟨a, hfind, hts⟩
    rw [hfind]
    simp [hts]

lemma isValidMove_iff (g : Grid) (atts : List AttendeeType)
    (id : Nat) (p : Position) :
    isValidMove g atts id p = true ↔
      inBounds p ∧
      (cellAt g p.y p.x).type ≠ CellType.wall ∧
      ((cellAt g p.y p.x).occupiedBy = none ∨
        (cellAt g p.y p.x).occupiedBy = some id) ∧
      ((cellAt g p.y p.x).type = CellType.chair →
        (id = PLAYER_ID ∨ ∃ a, atts.find? (fun a' => a'.id = id) = some a ∧
          a.targetSeat = some p)) := by
  unfold isValidMove
  by_cases hb : p.y < 0 ∨ GRID_ROWS ≤ p.y ∨ p.x < 0 ∨ GRID_COLS ≤ p.x
  · rw [if_pos hb]
    refine ⟨fun hfalse => absurd hfalse (by decide), ?_⟩
    rintro ⟨hib, -⟩
    exfalso
    unfold inBounds at hib
    omega
  · have hib : inBounds p := by unfold inBounds; omega
    rw [if_neg hb]
    by_cases hw : (cellAt g p.y p.x).type = CellType.wall
    · rw [if_pos hw]
      refine ⟨fun hfalse => absurd hfalse (by decide), ?_⟩
      rintro ⟨-, hw2, -⟩
      exact absurd hw hw2
    · rw [if_neg hw]
      by_cases ho : (cellAt g p.y p.x).occupiedBy.isSome ∧
          (cellAt g p.y p.x).occupiedBy ≠ some id
      · rw [if_pos ho]
        refine ⟨fun hfalse => absurd hfalse (by decide), ?_⟩
        rintro ⟨-, -, hocc, -⟩
        obtain ⟨hsome, hne⟩ := ho
        rcases hocc with h1 | h1
        · rw [h1] at hsome
          exact absurd hsome (by decide)
        · exact absurd h1 hne
      · have hocc : (cellAt g p.y p.x).occupiedBy = none ∨
            (cellAt g p.y p.x).occupiedBy = some id := by
          rcases h : (cellAt g p.y p.x).occupiedBy with _ | v
          · exact Or.inl rfl
          · right
            by_contra hne
            exact ho ⟨by rw [h]; rfl, by rw [h]; exact hne⟩
        rw [if_neg ho]
        by_cases hch : (cellAt g p.y p.x).type = CellType.chair
        · by_cases hpl : id = PLAYER_ID
          · rw [if_pos ⟨hpl, hch⟩]
            exact ⟨fun _ => ⟨hib, hw, hocc, fun _ => Or.inl hpl⟩, fun _ => rfl⟩
          · rw [if_neg (by rintro ⟨h1, -⟩; exact hpl h1), if_pos ⟨hpl, hch⟩]
            rw [npcChairCond]
            constructor
            · intro hex
              exact ⟨hib, hw, hocc, fun _ => Or.inr hex⟩
            · rintro ⟨-, -, -, himp⟩
              rcases himp hch with h1 | h1
              · exact absurd h1 hpl
              · exact h1
        · rw [if_neg (by rintro ⟨-, h2⟩; exact hch h2),
            if_neg (by rintro ⟨-, h2⟩; exact hch h2)]
          exact ⟨fun _ => ⟨hib, hw, hocc, fun hc => absurd hc hch⟩, fun _ => rfl⟩

end SeatChase

/-! Claim theorems. -/

namespace SeatChase

/-- Claim C3: `isValidMove` is legal exactly on in-bounds, non-wall cells
that are unoccupied or occupied by the mover itself, where additionally a
chair cell requires the mover to be the user agent or an NPC whose
`targetSeat` is that exact cell; in particular an NPC never validly enters
a chair other than its own `targetSeat`, while the user may enter any
chair. -/
theorem isValidMove_characterization (g : Grid) (atts : List AttendeeType)
    (id : Nat) (p : Position) :
    isValidMove g atts id p = true ↔
      inBounds p ∧
      (cellAt g p.y p.x).type ≠ CellType.wall ∧
      ((cellAt g p.y p.x).occupiedBy = none ∨
        (cellAt g p.y p.x).occupiedBy = some id) ∧
      ((cellAt g p.y p.x).type = CellType.chair →
        (id = PLAYER_ID ∨ ∃ a, atts.find? (fun a' => a'.id = id) = some a ∧
          a.targetSeat = some p)) :=
  isValidMove_iff g atts id p

/-- Witness for C3: the characterization evaluated at a concrete grid,
roster, mover and target cell. -/
theorem isValidMove_characterization_witness :
    isValidMove wState.grid wState.attendees 3 { x := 5, y := 5 } = true ↔
      inBounds { x := 5, y := 5 } ∧
      (cellAt wState.grid 5 5).type ≠ CellType.wall ∧
      ((cellAt wState.grid 5 5).occupiedBy = none ∨
        (cellAt wState.grid 5 5).occupiedBy = some 3) ∧
      ((cellAt wState.grid 5 5).type = CellType.chair →
        (3 = PLAYER_ID ∨ ∃ a,
          wState.attendees.find? (fun a' => a'.id = 3) = some a ∧
          a.targetSeat = some { x := 5, y := 5 })) :=
  isValidMove_characterization wState.grid wState.attendees 3 { x := 5, y := 5 }

/-- Claim C4: one `moveNPC` step of a non-seated NPC not at its target
computes the two signed axis deltas, tries the primary-axis steps in an
order given by the 50/50 draw (`true` = horizontal first, `false` =
vertical first; both draws exist), takes the first legal one, falls back to
the first legal direction of the shuffled permutation when both are
blocked, and stays in place when nothing is legal; an NPC at its target is
marked seated without moving. -/
theorem moveNPC_axis_order_spec (g : Grid) (atts : List AttendeeType)
    (dirs : List Direction) (a : AttendeeType) (t : Position)
    (hs : a.isSeated = false) (ht : a.targetSeat = some t) :
    (a.position = t → ∀ hF, moveNPC g atts hF dirs a = { a with isSeated := true }) ∧
    (a.position ≠ t →
      (((t.x - a.position.x).sign ≠ 0 ∧ isValidMove g atts a.id
          { x := a.position.x + (t.x - a.position.x).sign, y := a.position.y } = true) →
        moveNPC g atts true dirs a = { a with position :=
          { x := a.position.x + (t.x - a.position.x).sign, y := a.position.y } }) ∧
      (¬((t.x - a.position.x).sign ≠ 0 ∧ isValidMove g atts a.id
          { x := a.position.x + (t.x - a.position.x).sign, y := a.position.y } = true) →
        ((t.y - a.position.y).sign ≠ 0 ∧ isValidMove g atts a.id
          { x := a.position.x, y := a.position.y + (t.y - a.position.y).sign } = true) →
        moveNPC g atts true dirs a = { a with position :=
          { x := a.position.x, y := a.position.y + (t.y - a.position.y).sign } }) ∧
      (((t.y - a.position.y).sign ≠ 0 ∧ isValidMove g atts a.id
          { x := a.position.x, y := a.position.y + (t.y - a.position.y).sign } = true) →
        moveNPC g atts false dirs a = { a with position :=
          { x := a.position.x, y := a.position.y + (t.y - a.position.y).sign } }) ∧
      (¬((t.y - a.position.y).sign ≠ 0 ∧ isValidMove g atts a.id
          { x := a.position.x, y := a.position.y + (t.y - a.position.y).sign } = true) →
        ((t.x - a.position.x).sign ≠ 0 ∧ isValidMove g atts a.id
          { x := a.position.x + (t.x - a.position.x).sign, y := a.position.y } = true) →
        moveNPC g atts false dirs a = { a with position :=
          { x := a.position.x + (t.x - a.position.x).sign, y := a.position.y } }) ∧
      (¬((t.x - a.position.x).sign ≠ 0 ∧ isValidMove g atts a.id
          { x := a.position.x + (t.x - a.position.x).sign, y := a.position.y } = true) →
       ¬((t.y - a.position.y).sign ≠ 0 ∧ isValidMove g atts a.id
          { x := a.position.x, y := a.position.y + (t.y - a.position.y).sign } = true) →
        ∀ hF,
          (∀ d, dirs.find? (fun d' =>
              isValidMove g atts a.id (getNewPosition a.position d')) = some d →
            moveNPC g atts hF dirs a =
              { a with position := getNewPosition a.position d }) ∧
          (dirs.find? (fun d' =>
              isValidMove g atts a.id (getNewPosition a.position d')) = none →
            moveNPC g atts hF dirs a = a))) := by
  constructor
  · intro heq hF
    exact moveNPC_at_target g atts hF dirs a t hs ht heq
  · intro hne
    refine ⟨?_, ?_, ?_, ?_, ?_⟩
    · intro hOK
      exact moveNPC_h_first_x g atts dirs a t hs ht hne hOK
    · intro hnOK vOK
      exact moveNPC_h_first_y g atts dirs a t hs ht hne hnOK vOK
    · intro vOK
      exact moveNPC_v_first_y g atts dirs a t hs ht hne vOK
    · intro hnV hOK
      exact moveNPC_v_first_x g atts dirs a t hs ht hne hnV hOK
    · intro hnH hnV hF
      constructor
      · intro d hfind
        rw [moveNPC_fallback g atts hF dirs a t hs ht hne hnH hnV, hfind]
      · intro hfind
        rw [moveNPC_fallback g atts hF dirs a t hs ht hne hnH hnV, hfind]

/-- Witness for C4: the step specification evaluated at `npcA` headed for
`(5,2)` on the concrete fixture state. -/
theorem moveNPC_axis_order_spec_witness :
    npcA.isSeated = false ∧ npcA.targetSeat = some { x := 5, y := 2 } ∧
    (npcA.position ≠ { x := 5, y := 2 } →
      ((((5 : Int) - npcA.position.x).sign ≠ 0 ∧
          isValidMove exState.grid exAtts npcA.id
            { x := npcA.position.x + ((5 : Int) - npcA.position.x).sign,
              y := npcA.position.y } = true) →
        moveNPC exState.grid exAtts true exDirs npcA = { npcA with position :=
          { x := npcA.position.x + ((5 : Int) - npcA.position.x).sign,
            y := npcA.position.y } })) := by
  refine ⟨rfl, rfl, ?_⟩
  intro hne
  exact (moveNPC_axis_order_spec exState.grid exAtts exDirs npcA
    { x := 5, y := 2 } rfl rfl).2 hne |>.1

/-- Claim C7: the chair score is the pure function
`round (minScore + normalizedRowDistance * (maxScore - minScore))` with
`normalizedRowDistance = (totalRows - row) / totalRows`, `minScore = 100`,
`maxScore = 500`, `totalRows = 15`; it agrees with the spec's alternative
formula, and concretely row 5 scores 367 and row 14 scores 127. -/
theorem chair_score_formula :
    (∀ row : Int, calculateChairScore row = chairScoreSpec row) ∧
    calculateChairScore 5 = 367 ∧ calculateChairScore 14 = 127 := by
  refine ⟨?_, ?_, ?_⟩
  · intro row
    unfold calculateChairScore chairScoreSpec
    simp only [GRID_ROWS]
    congr 1
    push_cast
    ring
  · unfold calculateChairScore
    rw [round_eq]
    norm_num [GRID_ROWS]
  · unfold calculateChairScore
    rw [round_eq]
    norm_num [GRID_ROWS]

/-- Claim C8: the chair score is monotonically non-increasing in the row
index: a row at least as far from the podium scores at most as much. -/
theorem chair_score_antitone (r1 r2 : Int) (h : r1 ≤ r2) :
    calculateChairScore r2 ≤ calculateChairScore r1 := by
  unfold calculateChairScore
  simp only [round_eq, GRID_ROWS]
  apply Int.floor_le_floor
  have hc : (r1 : ℚ) ≤ (r2 : ℚ) := by exact_mod_cast h
  have key : ((15:ℚ) - r2) / 15 * 400 ≤ ((15:ℚ) - r1) / 15 * 400 := by
    apply mul_le_mul_of_nonneg_right _ (by norm_num)
    apply div_le_div_of_nonneg_right _ (by norm_num)
    linarith
  push_cast
  linarith

/-- Witness for C8: rows 5 and 14. -/
theorem chair_score_antitone_witness :
    (5 : Int) ≤ 14 ∧ calculateChairScore 14 ≤ calculateChairScore 5 :=
  ⟨by decide, chair_score_antitone 5 14 (by decide)⟩

/-- Claim C10: every `moveNPC` call leaves a seated or target-less attendee
(in particular the user agent) unchanged; otherwise it either marks the
attendee seated in place (exactly when it stands on its target), or moves
it by exactly one cardinal step to a cell `isValidMove` accepted, or leaves
it in place when no adjacent cell is legal, never touching id, seated flag
or target seat. -/
theorem moveNPC_step_cases (g : Grid) (atts : List AttendeeType) (hF : Bool)
    (dirs : List Direction) (a : AttendeeType)
    (hall : ∀ d : Direction, d ∈ dirs) :
    ((a.isSeated = true ∨ a.targetSeat = none) → moveNPC g atts hF dirs a = a) ∧
    (∀ t, a.isSeated = false → a.targetSeat = some t →
      (a.position = t → moveNPC g atts hF dirs a = { a with isSeated := true }) ∧
      (a.position ≠ t →
        (moveNPC g atts hF dirs a).id = a.id ∧
        (moveNPC g atts hF dirs a).isSeated = false ∧
        (moveNPC g atts hF dirs a).targetSeat = some t ∧
        ((∃ d : Direction,
            (moveNPC g atts hF dirs a).position = getNewPosition a.position d ∧
            isValidMove g atts a.id ((moveNPC g atts hF dirs a).position) = true) ∨
         ((moveNPC g atts hF dirs a).position = a.position ∧
          ∀ d : Direction,
            isValidMove g atts a.id (getNewPosition a.position d) = false)))) := by
  constructor
  · rintro (h | h)
    · unfold moveNPC
      rw [if_pos h]
    · unfold moveNPC
      cases hseat : a.isSeated
      · simp only [Bool.false_eq_true, if_false, h]
      · rfl
  · intro t hs ht
    refine ⟨moveNPC_at_target g atts hF dirs a t hs ht, ?_⟩
    intro hne
    by_cases hx : (t.x - a.position.x).sign ≠ 0 ∧ isValidMove g atts a.id
        { x := a.position.x + (t.x - a.position.x).sign, y := a.position.y } = true
    · cases hF
      · by_cases hy : (t.y - a.position.y).sign ≠ 0 ∧ isValidMove g atts a.id
            { x := a.position.x, y := a.position.y + (t.y - a.position.y).sign } = true
        · rw [moveNPC_v_first_y g atts dirs a t hs ht hne hy]
          obtain ⟨d, hd⟩ := ystep_is_dir_step a t hy.1
          exact ⟨rfl, hs, ht, Or.inl ⟨d, hd, hy.2⟩⟩
        · rw [moveNPC_v_first_x g atts dirs a t hs ht hne hy hx]
          obtain ⟨d, hd⟩ := xstep_is_dir_step a t hx.1
          exact ⟨rfl, hs, ht, Or.inl ⟨d, hd, hx.2⟩⟩
      · rw [moveNPC_h_first_x g atts dirs a t hs ht hne hx]
        obtain ⟨d, hd⟩ := xstep_is_dir_step a t hx.1
        exact ⟨rfl, hs, ht, Or.inl ⟨d, hd, hx.2⟩⟩
    · by_cases hy : (t.y - a.position.y).sign ≠ 0 ∧ isValidMove g atts a.id
          { x := a.position.x, y := a.position.y + (t.y - a.position.y).sign } = true
      · cases hF
        · rw [moveNPC_v_first_y g atts dirs a t hs ht hne hy]
          obtain ⟨d, hd⟩ := ystep_is_dir_step a t hy.1
          exact ⟨rfl, hs, ht, Or.inl ⟨d, hd, hy.2⟩⟩
        · rw [moveNPC_h_first_y g atts dirs a t hs ht hne hx hy]
          obtain ⟨d, hd⟩ := ystep_is_dir_step a t hy.1
          exact ⟨rfl, hs, ht, Or.inl ⟨d, hd, hy.2⟩⟩
      · rw [moveNPC_fallback g atts hF dirs a t hs ht hne hx hy]
        cases hfind : dirs.find? (fun d =>
            isValidMove g atts a.id (getNewPosition a.position d)) with
        | some d =>
          refine ⟨rfl, hs, ht, Or.inl ⟨d, rfl, ?_⟩⟩
          have := List.find?_some hfind
          simpa using this
        | none =>
          refine ⟨rfl, hs, ht, Or.inr ⟨rfl, ?_⟩⟩
          intro d
          have := List.find?_eq_none.mp hfind d (hall d)
          simpa using this

/-- Witness for C10: the case analysis evaluated for `npcB` on the fixture
state (its seated/target-less clause and its at-target clause evaluated for
the concrete roster). -/
theorem moveNPC_step_cases_witness :
    (∀ d : Direction, d ∈ exDirs) ∧
    ((npcW.isSeated = true ∨ npcW.targetSeat = none) →
      moveNPC wState.grid wAtts false exDirs npcW = npcW) := by
  have hall : ∀ d : Direction, d ∈ exDirs := by
    intro d
    cases d <;> simp [exDirs]
  exact ⟨hall,
    (moveNPC_step_cases wState.grid wAtts false exDirs npcW hall).1⟩

end SeatChase

/-! Shape lemmas for the batch, frame and user-move operations. -/

namespace SeatChase

lemma moveNPC_shape (g : Grid) (atts : List AttendeeType) (hF : Bool)
    (dirs : List Direction) (a : AttendeeType) :
    moveNPC g atts hF dirs a = a ∨
    moveNPC g atts hF dirs a = { a with isSeated := true } ∨
    ∃ p, moveNPC g atts hF dirs a = { a with position := p } := by
  rcases Bool.eq_false_or_eq_true a.isSeated with hs | hs
  on_goal 1 =>
    left
    unfold moveNPC
    rw [if_pos hs]
  rcases Option.eq_none_or_eq_some a.targetSeat with ht | ⟨t, ht⟩
  on_goal 1 =>
    left
    unfold moveNPC
    rw [if_neg (by simp [hs]), ht]
  by_cases heq : a.position = t
  · exact Or.inr (Or.inl (moveNPC_at_target g atts hF dirs a t hs ht heq))
  · by_cases hx : (t.x - a.position.x).sign ≠ 0 ∧ isValidMove g atts a.id
        { x := a.position.x + (t.x - a.position.x).sign, y := a.position.y } = true
    · cases hF
      · by_cases hy : (t.y - a.position.y).sign ≠ 0 ∧ isValidMove g atts a.id
            { x := a.position.x, y := a.position.y + (t.y - a.position.y).sign } = true
        · exact Or.inr (Or.inr ⟨_, moveNPC_v_first_y g atts dirs a t hs ht heq hy⟩)
        · exact Or.inr (Or.inr ⟨_, moveNPC_v_first_x g atts dirs a t hs ht heq hy hx⟩)
      · exact Or.inr (Or.inr ⟨_, moveNPC_h_first_x g atts dirs a t hs ht heq hx⟩)
    · by_cases hy : (t.y - a.position.y).sign ≠ 0 ∧ isValidMove g atts a.id
          { x := a.position.x, y := a.position.y + (t.y - a.position.y).sign } = true
      · cases hF
        · exact Or.inr (Or.inr ⟨_, moveNPC_v_first_y g atts dirs a t hs ht heq hy⟩)
        · exact Or.inr (Or.inr ⟨_, moveNPC_h_first_y g atts dirs a t hs ht heq hx hy⟩)
      · rw [moveNPC_fallback g atts hF dirs a t hs ht heq hx hy]
        cases hfind : dirs.find? (fun d =>
            isValidMove g atts a.id (getNewPosition a.position d)) with
        | some d => exact Or.inr (Or.inr ⟨_, rfl⟩)
        | none => exact Or.inl rfl

lemma moveNPC_id (g : Grid) (atts : List AttendeeType) (hF : Bool)
    (dirs : List Direction) (a : AttendeeType) :
    (moveNPC g atts hF dirs a).id = a.id := by
  rcases moveNPC_shape g atts hF dirs a with h | h | ⟨p, h⟩ <;> rw [h]

lemma npcDue_of_seated (now : Nat) (a : AttendeeType) (hs : a.isSeated = true) :
    npcDue now a = false := by
  unfold npcDue
  rw [hs]
  simp

lemma batchStep_id (g : Grid) (atts : List AttendeeType) (now : Nat)
    (hF : Nat → Bool) (dirs : Nat → List Direction) (b : AttendeeType) :
    (batchStep g atts now hF dirs b).id = b.id := by
  unfold batchStep
  split
  · rw [moveNPC_id]
  · rfl

lemma batchStep_seated_fix (g : Grid) (atts : List AttendeeType) (now : Nat)
    (hF : Nat → Bool) (dirs : Nat → List Direction) (b : AttendeeType)
    (hs : b.isSeated = true) :
    batchStep g atts now hF dirs b = b := by
  unfold batchStep
  rw [npcDue_of_seated now b hs]
  simp

lemma npcBatch_gameOver (s : WorldState) (now : Nat) (hF : Nat → Bool)
    (dirs : Nat → List Direction) :
    (npcBatch s now hF dirs).gameOver = s.gameOver := by
  unfold npcBatch
  split <;> rfl

lemma npcBatch_attendees (s : WorldState) (now : Nat) (hF : Nat → Bool)
    (dirs : Nat → List Direction) :
    (npcBatch s now hF dirs).attendees =
      s.attendees.map (batchStep s.grid s.attendees now hF dirs) ∨
    npcBatch s now hF dirs = s := by
  unfold npcBatch
  split
  · exact Or.inl rfl
  · exact Or.inr rfl

lemma npcBatch_all_seated (s : WorldState) (now : Nat) (hF : Nat → Bool)
    (dirs : Nat → List Direction)
    (h : ∀ a ∈ s.attendees, a.isSeated = true) :
    npcBatch s now hF dirs = s := by
  unfold npcBatch
  rw [if_neg ?_]
  intro hany
  rw [List.any_eq_true] at hany
  obtain ⟨a, ha, hdue⟩ := hany
  rw [npcDue_of_seated now a (h a ha)] at hdue
  exact absurd hdue (by decide)

lemma updateClockFrame_attendees (s : WorldState) (now : Nat) (hF : Nat → Bool)
    (dirs : Nat → List Direction) :
    (updateClockFrame s now hF dirs).attendees = (npcBatch s now hF dirs).attendees ∨
    (updateClockFrame s now hF dirs).attendees = s.attendees := by
  unfold updateClockFrame
  split
  · exact Or.inr rfl
  · split
    · exact Or.inl rfl
    · exact Or.inl rfl

lemma movePlayer_cases (s : WorldState) (d : Direction) :
    movePlayer s d = s ∨
    (s.gameOver = false ∧ s.playerSeated = false ∧
     ∃ player, s.attendees.find? (fun a => a.id = PLAYER_ID) = some player ∧
       isValidMove s.grid s.attendees PLAYER_ID
         (getNewPosition player.position d) = true ∧
       movePlayer s d = movePlayerApply s player (getNewPosition player.position d)) := by
  unfold movePlayer
  by_cases hguard : s.gameOver = true ∨ s.playerSeated = true
  · rw [if_pos hguard]
    exact Or.inl rfl
  · rw [if_neg hguard]
    have hgo : s.gameOver = false := by
      rcases Bool.eq_false_or_eq_true s.gameOver with h | h
      · exact absurd (Or.inl h) hguard
      · exact h
    have hps : s.playerSeated = false := by
      rcases Bool.eq_false_or_eq_true s.playerSeated with h | h
      · exact absurd (Or.inr h) hguard
      · exact h
    cases hfind : s.attendees.find? (fun a => a.id = PLAYER_ID) with
    | none =>
      simp only [hfind]
      exact Or.inl trivial
    | some player =>
      simp only [hfind]
      by_cases hv : isValidMove s.grid s.attendees PLAYER_ID
          (getNewPosition player.position d) = true
      · rw [if_pos hv]
        exact Or.inr ⟨hgo, hps, player, rfl, hv, rfl⟩
      · rw [if_neg hv]
        exact Or.inl rfl

/-- Claim C5: once an agent's seated flag is true, no NPC batch, no user
move and no frame (including its occupancy resynchronization) changes its
position, and none of them resets the flag, assuming ids are unique and the
`playerSeated` mirror is in sync with the player agent (as every reachable
state of the component has it). -/
theorem seated_position_immutable (s : WorldState) (now : Nat) (hF : Nat → Bool)
    (dirs : Nat → List Direction) (d : Direction)
    (hids : (s.attendees.map (fun a => a.id)).Nodup)
    (hsync : ∀ p ∈ s.attendees, p.id = PLAYER_ID → p.isSeated = true →
      s.playerSeated = true)
    (a : AttendeeType) (ha : a ∈ s.attendees) (hseat : a.isSeated = true) :
    (∀ a' ∈ (npcBatch s now hF dirs).attendees, a'.id = a.id →
      a'.position = a.position ∧ a'.isSeated = true) ∧
    (∀ a' ∈ (movePlayer s d).attendees, a'.id = a.id →
      a'.position = a.position ∧ a'.isSeated = true) ∧
    (∀ a' ∈ (updateClockFrame s now hF dirs).attendees, a'.id = a.id →
      a'.position = a.position ∧ a'.isSeated = true) := by
  have inj := List.inj_on_of_nodup_map hids
  have hbase : ∀ a' ∈ s.attendees, a'.id = a.id →
      a'.position = a.position ∧ a'.isSeated = true := by
    intro a' ha' hid
    have := inj ha' ha hid
    subst this
    exact ⟨rfl, hseat⟩
  have hbatch : ∀ a' ∈ (npcBatch s now hF dirs).attendees, a'.id = a.id →
      a'.position = a.position ∧ a'.isSeated = true := by
    intro a' ha' hid
    rcases npcBatch_attendees s now hF dirs with heq | heq
    · rw [heq] at ha'
      obtain ⟨b, hb, hfb⟩ := List.mem_map.mp ha'
      have hbid : b.id = a.id := by
        rw [← hid, ← hfb, batchStep_id]
      have hba : b = a := inj hb ha hbid
      subst hba
      rw [← hfb, batchStep_seated_fix s.grid s.attendees now hF dirs b hseat]
      exact ⟨rfl, hseat⟩
    · rw [heq] at ha'
      exact hbase a' ha' hid
  refine ⟨hbatch, ?_, ?_⟩
  · intro a' ha' hid
    rcases movePlayer_cases s d with heq | ⟨hgo, hps, player, hfind, hv, heq⟩
    · rw [heq] at ha'
      exact hbase a' ha' hid
    · rw [heq] at ha'
      unfold movePlayerApply at ha'
      simp only [List.mem_map] at ha'
      obtain ⟨b, hb, hub⟩ := ha'
      by_cases hbp : b.id = PLAYER_ID
      · exfalso
        rw [if_pos hbp] at hub
        have haid : a.id = PLAYER_ID := by
          rw [← hid, ← hub]
          exact hbp
        have hsp := hsync a ha haid hseat
        rw [hps] at hsp
        exact absurd hsp (by decide)
      · rw [if_neg hbp] at hub
        subst hub
        exact hbase b hb hid
  · intro a' ha' hid
    rcases updateClockFrame_attendees s now hF dirs with heq | heq
    · rw [heq] at ha'
      exact hbatch a' ha' hid
    · rw [heq] at ha'
      exact hbase a' ha' hid

/-- Witness for C5: the seated NPC of the fixture state is untouched by a
batch, a user move and a frame. -/
theorem seated_position_immutable_witness :
    (∀ a' ∈ (npcBatch wState 0 (fun _ => true) (fun _ => exDirs)).attendees,
      a'.id = npcW.id → a'.position = npcW.position ∧ a'.isSeated = true) ∧
    (∀ a' ∈ (movePlayer wState Direction.down).attendees,
      a'.id = npcW.id → a'.position = npcW.position ∧ a'.isSeated = true) ∧
    (∀ a' ∈ (updateClockFrame wState 0 (fun _ => true) (fun _ => exDirs)).attendees,
      a'.id = npcW.id → a'.position = npcW.position ∧ a'.isSeated = true) :=
  seated_position_immutable wState 0 (fun _ => true) (fun _ => exDirs)
    Direction.down (by decide) (by decide) npcW (by decide) rfl

/-- Claim C6: while the game is running, one frame sets `gameOver` exactly
when the seated flag of every attendee of the checked roster is true, every
attendee is seated in the resulting state when it fires, and once
`gameOver` holds a frame changes nothing, so the transition cannot fire a
second time. -/
theorem ended_transition_spec (s : WorldState) (now : Nat) (hF : Nat → Bool)
    (dirs : Nat → List Direction) (hrun : s.gameOver = false) :
    ((updateClockFrame s now hF dirs).gameOver = true ↔
      ∀ a ∈ s.attendees, a.isSeated = true) ∧
    ((updateClockFrame s now hF dirs).gameOver = true →
      ∀ a ∈ (updateClockFrame s now hF dirs).attendees, a.isSeated = true) ∧
    (∀ s' : WorldState, s'.gameOver = true →
      updateClockFrame s' now hF dirs = s') := by
  have hnotover : ¬ s.gameOver = true := by
    rw [hrun]
    decide
  by_cases hall : s.attendees.all (fun a => a.isSeated) = true
  · have hallp : ∀ a ∈ s.attendees, a.isSeated = true := by
      intro a ha
      exact List.all_eq_true.mp hall a ha
    have hb : npcBatch s now hF dirs = s := npcBatch_all_seated s now hF dirs hallp
    have hframe : updateClockFrame s now hF dirs =
        { npcBatch s now hF dirs with gameOver := true } := by
      unfold updateClockFrame
      rw [if_neg hnotover, if_pos hall]
    refine ⟨?_, ?_, ?_⟩
    · rw [hframe]
      exact ⟨fun _ => hallp, fun _ => rfl⟩
    · intro h
      rw [hframe, hb]
      intro a ha
      exact hallp a ha
    · intro s' h
      unfold updateClockFrame
      rw [if_pos h]
  · have hframe : updateClockFrame s now hF dirs = npcBatch s now hF dirs := by
      unfold updateClockFrame
      rw [if_neg hnotover, if_neg hall]
    have hgo2 : (updateClockFrame s now hF dirs).gameOver = false := by
      rw [hframe, npcBatch_gameOver, hrun]
    refine ⟨?_, ?_, ?_⟩
    · rw [hgo2]
      constructor
      · intro h
        exact absurd h (by decide)
      · intro hallp
        exfalso
        exact hall (List.all_eq_true.mpr (fun a ha => hallp a ha))
    · intro h
      rw [hgo2] at h
      exact absurd h (by decide)
    · intro s' h
      unfold updateClockFrame
      rw [if_pos h]

/-- Witness for C6: the transition behavior evaluated on the all-seated
fixture state. -/
theorem ended_transition_spec_witness :
    ((updateClockFrame allState 0 (fun _ => true) (fun _ => exDirs)).gameOver = true ↔
      ∀ a ∈ allState.attendees, a.isSeated = true) ∧
    ((updateClockFrame allState 0 (fun _ => true) (fun _ => exDirs)).gameOver = true →
      ∀ a ∈ (updateClockFrame allState 0 (fun _ => true) (fun _ => exDirs)).attendees,
        a.isSeated = true) ∧
    (∀ s' : WorldState, s'.gameOver = true →
      updateClockFrame s' 0 (fun _ => true) (fun _ => exDirs) = s') :=
  ended_transition_spec allState 0 (fun _ => true) (fun _ => exDirs) rfl

/-- Claim C9: an illegal, early-rejected or guarded user move is a complete
no-op (identical whole state, counter included, and no exception exists in
the model), and the move counter grows by exactly one exactly when the move
is applied. -/
theorem movePlayer_reject_atomic (s : WorldState) (d : Direction) :
    ((s.gameOver = true ∨ s.playerSeated = true) → movePlayer s d = s) ∧
    (∀ player, s.attendees.find? (fun a => a.id = PLAYER_ID) = some player →
      isValidMove s.grid s.attendees PLAYER_ID
        (getNewPosition player.position d) = false →
      movePlayer s d = s) ∧
    (movePlayer s d = s ∨ (movePlayer s d).movesCount = s.movesCount + 1) := by
  refine ⟨?_, ?_, ?_⟩
  · intro h
    unfold movePlayer
    rw [if_pos h]
  · intro player hfind hinv
    unfold movePlayer
    by_cases hguard : s.gameOver = true ∨ s.playerSeated = true
    · rw [if_pos hguard]
    · rw [if_neg hguard]
      simp only [hfind]
      rw [if_neg (by rw [hinv]; decide)]
  · rcases movePlayer_cases s d with heq | ⟨-, -, player, -, -, heq⟩
    · exact Or.inl heq
    · right
      rw [heq]
      unfold movePlayerApply
      rfl

/-- Witness for C9: the user standing in the corner of the fixture grid;
the `up` move is out of bounds and rejected as a complete no-op. -/
theorem movePlayer_reject_atomic_witness :
    pState.attendees.find? (fun a => a.id = PLAYER_ID) = some playerEdge ∧
    isValidMove pState.grid pState.attendees PLAYER_ID
      (getNewPosition playerEdge.position Direction.up) = false ∧
    movePlayer pState Direction.up = pState := by
  refine ⟨by decide, by decide, ?_⟩
  exact (movePlayer_reject_atomic pState Direction.up).2.1 playerEdge
    (by decide) (by decide)

end SeatChase

/-! Occupancy-index lemmas and the remaining claims. -/

namespace SeatChase

lemma cellAt_clear (g : Grid) (y x : Int) :
    cellAt (clearOccupation g) y x = { cellAt g y x with occupiedBy := none } := by
  unfold cellAt clearOccupation
  simp only [List.getD_eq_getElem?_getD, List.getElem?_map]
  cases hrow : g[y.toNat]? with
  | none => simp [hrow, defaultCell]
  | some row =>
    simp only [hrow, Option.map_some', Option.getD_some, List.getElem?_map]
    cases hcell : row[x.toNat]? with
    | none => simp [hcell, defaultCell]
    | some c => simp [hcell]

lemma clearOccupation_WF (g : Grid) (h : gridWF g) : gridWF (clearOccupation g) := by
  obtain ⟨hlen, hrow⟩ := h
  constructor
  · rw [clearOccupation, List.length_map, hlen]
  · intro row hr
    rw [clearOccupation, List.mem_map] at hr
    obtain ⟨row0, hr0, hmap⟩ := hr
    rw [← hmap, List.length_map]
    exact hrow row0 hr0

lemma modifyCell_WF (g : Grid) (y x : Int) (f : GridCell → GridCell)
    (h : gridWF g) : gridWF (modifyCell g y x f) := by
  obtain ⟨hlen, hrow⟩ := h
  unfold modifyCell
  split
  · constructor
    · rw [List.length_set, hlen]
    · intro row hr
      by_cases hy : y.toNat < g.length
      · rcases List.mem_or_eq_of_mem_set hr with hmem | heq
        · exact hrow row hmem
        · rw [heq, List.length_set, List.getD_eq_getElem _ _ hy]
          exact hrow _ (List.getElem_mem hy)
      · rw [List.set_eq_of_length_le (Nat.le_of_not_lt hy)] at hr
        exact hrow row hr
  · exact ⟨hlen, hrow⟩

lemma modifyCell_read_same (g : Grid) (y x : Int) (f : GridCell → GridCell)
    (hy0 : 0 ≤ y) (hx0 : 0 ≤ x)
    (hy : y.toNat < g.length) (hx : x.toNat < (g.getD y.toNat []).length) :
    cellAt (modifyCell g y x f) y x = f (cellAt g y x) := by
  unfold modifyCell cellAt
  rw [if_pos ⟨hy0, hx0⟩]
  simp only [List.getD_eq_getElem?_getD] at hx ⊢
  rw [List.getElem?_set_self hy, Option.getD_some, List.getElem?_set_self hx,
    Option.getD_some]

lemma modifyCell_read_ne (g : Grid) (y x y' x' : Int) (f : GridCell → GridCell)
    (h : ¬(y' = y ∧ x' = x))
    (hy0 : 0 ≤ y) (hx0 : 0 ≤ x) (hy0' : 0 ≤ y') (hx0' : 0 ≤ x') :
    cellAt (modifyCell g y x f) y' x' = cellAt g y' x' := by
  unfold modifyCell cellAt
  rw [if_pos ⟨hy0, hx0⟩]
  by_cases hyy : y' = y
  · subst hyy
    have hxx : x' ≠ x := fun hc => h ⟨rfl, hc⟩
    have hxn : x.toNat ≠ x'.toNat := by omega
    by_cases hy : y'.toNat < g.length
    · simp only [List.getD_eq_getElem?_getD]
      rw [List.getElem?_set_self hy, Option.getD_some, List.getElem?_set_ne hxn]
    · rw [List.set_eq_of_length_le (Nat.le_of_not_lt hy)]
  · have hyn : y.toNat ≠ y'.toNat := by omega
    simp only [List.getD_eq_getElem?_getD]
    rw [List.getElem?_set_ne hyn]

end SeatChase
namespace SeatChase

lemma markOccupied_WF (g : Grid) (a : AttendeeType) (h : gridWF g) :
    gridWF (markOccupied g a) := by
  unfold markOccupied
  split
  · exact modifyCell_WF _ _ _ _ h
  · exact h

lemma foldl_markOccupied_WF (atts : List AttendeeType) (g : Grid) (h : gridWF g) :
    gridWF (atts.foldl markOccupied g) := by
  induction atts generalizing g with
  | nil => exact h
  | cons b rest ih => exact ih (markOccupied g b) (markOccupied_WF g b h)

lemma markOccupied_keep (g : Grid) (a : AttendeeType) (q : Position)
    (hq : inBounds q) (hne : a.position ≠ q) :
    cellAt (markOccupied g a) q.y q.x = cellAt g q.y q.x := by
  unfold markOccupied
  split
  · next hin =>
    apply modifyCell_read_ne
    · rintro ⟨hy, hx⟩
      apply hne
      cases hp : a.position
      cases hqq : q
      simp only [Position.mk.injEq]
      rw [hp] at hx hy
      rw [hqq] at hx hy
      simp at hx hy
      exact ⟨hx.symm, hy.symm⟩
    · exact hin.1
    · exact hin.2.2.1
    · exact hq.1
    · exact hq.2.2.1
  · rfl

lemma markOccupied_set (g : Grid) (a : AttendeeType) (hwf : gridWF g)
    (hin : inBounds a.position) :
    cellAt (markOccupied g a) a.position.y a.position.x =
      { cellAt g a.position.y a.position.x with occupiedBy := some a.id } := by
  obtain ⟨hy0, hylt, hx0, hxlt⟩ := hin
  simp only [GRID_ROWS, GRID_COLS] at hylt hxlt
  unfold markOccupied
  rw [if_pos ⟨hy0, by simp only [GRID_ROWS]; omega, hx0, by simp only [GRID_COLS]; omega⟩]
  apply modifyCell_read_same
  · exact hy0
  · exact hx0
  · rw [hwf.1]
    simp only [GRID_ROWS]
    omega
  · have hylt2 : a.position.y.toNat < g.length := by
      rw [hwf.1]
      simp only [GRID_ROWS]
      omega
    rw [List.getD_eq_getElem _ _ hylt2, hwf.2 _ (List.getElem_mem hylt2)]
    simp only [GRID_COLS]
    omega

lemma foldl_markOccupied_keep (atts : List AttendeeType) (g : Grid) (q : Position)
    (hq : inBounds q) (hnone : ∀ a ∈ atts, a.position ≠ q) :
    cellAt (atts.foldl markOccupied g) q.y q.x = cellAt g q.y q.x := by
  induction atts generalizing g with
  | nil => rfl
  | cons b rest ih =>
    rw [List.foldl_cons,
      ih (markOccupied g b) (fun a ha => hnone a (List.mem_cons_of_mem b ha))]
    exact markOccupied_keep g b q hq (hnone b (List.mem_cons_self b rest))

lemma foldl_markOccupied_set (atts : List AttendeeType) (g : Grid) (a : AttendeeType)
    (hwf : gridWF g)
    (hdist : atts.Pairwise (fun p q => p.position ≠ q.position))
    (ha : a ∈ atts) (hin : inBounds a.position) :
    cellAt (atts.foldl markOccupied g) a.position.y a.position.x =
      { cellAt g a.position.y a.position.x with occupiedBy := some a.id } := by
  induction atts generalizing g with
  | nil => cases ha
  | cons b rest ih =>
    rw [List.foldl_cons]
    rcases List.mem_cons.mp ha with heq | hmem
    · subst heq
      have hrest : ∀ c ∈ rest, c.position ≠ a.position := by
        intro c hc
        exact ((List.pairwise_cons.mp hdist).1 c hc).symm
      rw [foldl_markOccupied_keep rest (markOccupied g a) a.position hin hrest]
      exact markOccupied_set g a hwf hin
    · have hbne : b.position ≠ a.position := (List.pairwise_cons.mp hdist).1 a hmem
      rw [ih (markOccupied g b) (markOccupied_WF g b hwf)
        (List.pairwise_cons.mp hdist).2 hmem]
      rw [markOccupied_keep g b a.position hin hbne]

end SeatChase
namespace SeatChase

lemma resync_matches (g : Grid) (atts : List AttendeeType) (hwf : gridWF g)
    (hdist : atts.Pairwise (fun p q => p.position ≠ q.position)) :
    occupancyMatches (updateGridOccupation g atts) atts := by
  intro y hy x hx
  have hq : inBounds { x := (x : Int), y := (y : Int) } := by
    unfold inBounds
    simp only [GRID_ROWS, GRID_COLS] at hy hx ⊢
    omega
  unfold updateGridOccupation
  by_cases hex : ∃ a ∈ atts, a.position = { x := (x : Int), y := (y : Int) }
  · obtain ⟨a, ha, hpos⟩ := hex
    have hset := foldl_markOccupied_set atts (clearOccupation g) a
      (clearOccupation_WF g hwf) hdist ha (by rw [hpos]; exact hq)
    rw [hpos] at hset
    constructor
    · right
      exact ⟨a, ha, by rw [hset], hpos⟩
    · intro a' ha' hpos'
      by_cases haa : a' = a
      · subst haa
        rw [hset]
      · exfalso
        have hsym : Symmetric (fun p q : AttendeeType => p.position ≠ q.position) := by
          intro p q h
          exact h.symm
        have := (hdist.forall hsym) ha' ha haa
        rw [hpos, hpos'] at this
        exact this rfl
  · push_neg at hex
    have hkeep := foldl_markOccupied_keep atts (clearOccupation g)
      { x := (x : Int), y := (y : Int) } hq hex
    constructor
    · left
      rw [hkeep, cellAt_clear]
    · intro a' ha' hpos'
      exact absurd hpos' (hex a' ha')

end SeatChase
namespace SeatChase

lemma getNewPosition_ne (p : Position) (d : Direction) : getNewPosition p d ≠ p := by
  cases d <;>
    · unfold getNewPosition
      intro h
      cases p
      simp only [Position.mk.injEq] at h
      omega

lemma pos_ne_coords {p q : Position} (h : p ≠ q) : ¬(q.y = p.y ∧ q.x = p.x) := by
  rintro ⟨hy, hx⟩
  apply h
  cases p
  cases q
  simp_all

lemma matches_at {g : Grid} {atts : List AttendeeType}
    (hm : occupancyMatches g atts) (p : Position) (hp : inBounds p) :
    ((cellAt g p.y p.x).occupiedBy = none ∨
      ∃ a ∈ atts, (cellAt g p.y p.x).occupiedBy = some a.id ∧ a.position = p) ∧
    (∀ a ∈ atts, a.position = p → (cellAt g p.y p.x).occupiedBy = some a.id) := by
  obtain ⟨hy0, hylt, hx0, hxlt⟩ := hp
  have h := hm p.y.toNat (by simp only [GRID_ROWS] at hylt ⊢; omega)
    p.x.toNat (by simp only [GRID_COLS] at hxlt ⊢; omega)
  rw [Int.toNat_of_nonneg hy0, Int.toNat_of_nonneg hx0] at h
  exact h

end SeatChase
namespace SeatChase

lemma movePlayer_preserves_matches (s : WorldState) (d : Direction)
    (hwf : gridWF s.grid)
    (hids : (s.attendees.map (fun a => a.id)).Nodup)
    (hin : ∀ a ∈ s.attendees, inBounds a.position)
    (hm : occupancyMatches s.grid s.attendees) :
    occupancyMatches (movePlayer s d).grid (movePlayer s d).attendees := by
  have inj := List.inj_on_of_nodup_map hids
  rcases movePlayer_cases s d with heq | ⟨hgo, hps, player, hfind, hv, heq⟩
  · rw [heq]
    exact hm
  · have hplayer_mem : player ∈ s.attendees := List.mem_of_find?_eq_some hfind
    have hplayer_id : player.id = PLAYER_ID := by
      have := List.find?_some hfind
      simpa using this
    have hpin : inBounds player.position := hin player hplayer_mem
    obtain ⟨hnib, hnwall, hnocc, hnchair⟩ :=
      (isValidMove_iff s.grid s.attendees PLAYER_ID
        (getNewPosition player.position d)).mp hv
    have hne_np : getNewPosition player.position d ≠ player.position :=
      getNewPosition_ne player.position d
    -- the old cell lists the player
    have hold_occ : (cellAt s.grid player.position.y player.position.x).occupiedBy
        = some PLAYER_ID := by
      rw [(matches_at hm player.position hpin).2 player hplayer_mem rfl, hplayer_id]
    -- the target cell is unoccupied, and no attendee stands there
    have hnew_none : (cellAt s.grid (getNewPosition player.position d).y
        (getNewPosition player.position d).x).occupiedBy = none := by
      rcases hnocc with h | h
      · exact h
      · exfalso
        rcases (matches_at hm (getNewPosition player.position d) hnib).1 with h0 | h0
        · rw [h] at h0
          exact Option.noConfusion h0
        · obtain ⟨a, ha, hocc, hpos⟩ := h0
          rw [h] at hocc
          have haid : a.id = player.id := by
            rw [hplayer_id]
            injection hocc with hocc
            exact hocc.symm
          have : a = player := inj ha hplayer_mem haid
          subst this
          exact hne_np hpos.symm
    have hnew_noatt : ∀ a ∈ s.attendees,
        a.position ≠ getNewPosition player.position d := by
      intro a ha hpos
      have := (matches_at hm (getNewPosition player.position d) hnib).2 a ha hpos
      rw [hnew_none] at this
      exact Option.noConfusion this
    rw [heq]
    unfold movePlayerApply
    rw [if_pos hold_occ]
    intro y hy x hx
    have hq : inBounds { x := (x : Int), y := (y : Int) } := by
      unfold inBounds
      simp only [GRID_ROWS, GRID_COLS] at hy hx ⊢
      omega
    have hwf1 : gridWF (modifyCell s.grid player.position.y player.position.x
        (fun c => { c with occupiedBy := none })) :=
      modifyCell_WF _ _ _ _ hwf
    by_cases hqnew : ({ x := (x : Int), y := (y : Int) } : Position) =
        getNewPosition player.position d
    · -- the target cell
      have hcell2 : cellAt (modifyCell
            (modifyCell s.grid player.position.y player.position.x
              (fun c => { c with occupiedBy := none }))
            (getNewPosition player.position d).y (getNewPosition player.position d).x
            (fun c => { c with occupiedBy := some PLAYER_ID }))
            (y : Int) (x : Int) =
          { cellAt (modifyCell s.grid player.position.y player.position.x
              (fun c => { c with occupiedBy := none }))
              (y : Int) (x : Int) with occupiedBy := some PLAYER_ID } := by
        have hyy : ((y : Int)) = (getNewPosition player.position d).y := by
          rw [← hqnew]
        have hxx : ((x : Int)) = (getNewPosition player.position d).x := by
          rw [← hqnew]
        rw [hyy, hxx]
        apply modifyCell_read_same
        · exact hnib.1
        · exact hnib.2.2.1
        · rw [hwf1.1]
          have := hnib.2.1
          simp only [GRID_ROWS] at this ⊢
          omega
        · have hylt2 : (getNewPosition player.position d).y.toNat <
              (modifyCell s.grid player.position.y player.position.x
                (fun c => { c with occupiedBy := none })).length := by
            rw [hwf1.1]
            have := hnib.2.1
            have := hnib.1
            simp only [GRID_ROWS] at *
            omega
          rw [List.getD_eq_getElem _ _ hylt2, hwf1.2 _ (List.getElem_mem hylt2)]
          have := hnib.2.2.2
          have := hnib.2.2.1
          simp only [GRID_COLS] at *
          omega
      rw [hcell2]
      constructor
      · right
        refine ⟨_, List.mem_map_of_mem _ hplayer_mem, ?_, ?_⟩
        · simp [hplayer_id]
        · simp [hplayer_id]
          exact hqnew.symm
      · intro a' ha' hpos'
        rw [List.mem_map] at ha'
        obtain ⟨b, hb, hub⟩ := ha'
        by_cases hbp : b.id = PLAYER_ID
        · rw [if_pos hbp] at hub
          rw [← hub]
          simp [hbp]
        · rw [if_neg hbp] at hub
          subst hub
          rw [hqnew] at hpos'
          exact absurd hpos' (hnew_noatt b hb)
    · -- not the target cell
      have hcell2 : cellAt (modifyCell
            (modifyCell s.grid player.position.y player.position.x
              (fun c => { c with occupiedBy := none }))
            (getNewPosition player.position d).y (getNewPosition player.position d).x
            (fun c => { c with occupiedBy := some PLAYER_ID }))
            (y : Int) (x : Int) =
          cellAt (modifyCell s.grid player.position.y player.position.x
            (fun c => { c with occupiedBy := none })) (y : Int) (x : Int) := by
        apply modifyCell_read_ne
        · exact pos_ne_coords (Ne.symm hqnew)
        · exact hnib.1
        · exact hnib.2.2.1
        · exact hq.1
        · exact hq.2.2.1
      rw [hcell2]
      by_cases hqold : ({ x := (x : Int), y := (y : Int) } : Position) = player.position
      · -- the vacated cell
        have hcell1 : cellAt (modifyCell s.grid player.position.y player.position.x
              (fun c => { c with occupiedBy := none })) (y : Int) (x : Int) =
            { cellAt s.grid (y : Int) (x : Int) with occupiedBy := none } := by
          have hyy : ((y : Int)) = player.position.y := by rw [← hqold]
          have hxx : ((x : Int)) = player.position.x := by rw [← hqold]
          rw [hyy, hxx]
          apply modifyCell_read_same
          · exact hpin.1
          · exact hpin.2.2.1
          · rw [hwf.1]
            have := hpin.2.1
            have := hpin.1
            simp only [GRID_ROWS] at *
            omega
          · have hylt2 : player.position.y.toNat < s.grid.length := by
              rw [hwf.1]
              have := hpin.2.1
              have := hpin.1
              simp only [GRID_ROWS] at *
              omega
            rw [List.getD_eq_getElem _ _ hylt2, hwf.2 _ (List.getElem_mem hylt2)]
            have := hpin.2.2.2
            have := hpin.2.2.1
            simp only [GRID_COLS] at *
            omega
        rw [hcell1]
        constructor
        · left
          rfl
        · intro a' ha' hpos'
          rw [List.mem_map] at ha'
          obtain ⟨b, hb, hub⟩ := ha'
          by_cases hbp : b.id = PLAYER_ID
          · rw [if_pos hbp] at hub
            exfalso
            apply hqnew
            rw [← hpos', ← hub]
          · rw [if_neg hbp] at hub
            subst hub
            exfalso
            have hocc := (matches_at hm player.position hpin).2 b hb
              (by rw [← hqold]; exact hpos')
            rw [hold_occ] at hocc
            apply hbp
            injection hocc with hocc
            exact hocc.symm
      · -- any other cell
        have hcell1 : cellAt (modifyCell s.grid player.position.y player.position.x
              (fun c => { c with occupiedBy := none })) (y : Int) (x : Int) =
            cellAt s.grid (y : Int) (x : Int) := by
          apply modifyCell_read_ne
          · exact pos_ne_coords (Ne.symm hqold)
          · exact hpin.1
          · exact hpin.2.2.1
          · exact hq.1
          · exact hq.2.2.1
        rw [hcell1]
        constructor
        · rcases (matches_at hm { x := (x : Int), y := (y : Int) } hq).1 with h0 | h0
          · exact Or.inl h0
          · obtain ⟨a, ha, hocc, hpos⟩ := h0
            right
            by_cases hap : a.id = PLAYER_ID
            · exfalso
              have : a = player := inj ha hplayer_mem (by rw [hap, hplayer_id])
              subst this
              exact hqold hpos.symm
            · refine ⟨a, ?_, hocc, hpos⟩
              rw [List.mem_map]
              exact ⟨a, ha, by rw [if_neg hap]⟩
        · intro a' ha' hpos'
          rw [List.mem_map] at ha'
          obtain ⟨b, hb, hub⟩ := ha'
          by_cases hbp : b.id = PLAYER_ID
          · rw [if_pos hbp] at hub
            exfalso
            apply hqnew
            rw [← hpos', ← hub]
          · rw [if_neg hbp] at hub
            subst hub
            exact (matches_at hm { x := (x : Int), y := (y : Int) } hq).2 b hb hpos'

end SeatChase

namespace SeatChase

/-- Claim C1 (evaluation at the failing input): in one tick of `exState`,
both NPCs validate their greedy step against the grid captured before the
batch, so both move into the free cell `(4,2)` and the batch ends with two
distinct agents on one cell. -/
theorem npc_batch_collision_eval :
    exBatch.attendees.map (fun a => (a.id, a.position.x, a.position.y)) =
      [(1, 4, 2), (2, 4, 2)] ∧
    ∃ a, a ∈ exBatch.attendees ∧ ∃ b, b ∈ exBatch.attendees ∧
      a.id ≠ b.id ∧ a.position = b.position := by
  refine ⟨by decide, ?_⟩
  refine ⟨{ npcA with position := { x := 4, y := 2 }, nextMove := some 1000 },
    by decide,
    { npcB with position := { x := 4, y := 2 }, nextMove := some 1000 },
    by decide, by decide, by decide⟩

/-- Claim C2 (counterexample): after the colliding batch of `exState` and
its occupancy resynchronization, the occupancy index does not match the
roster: the shared cell lists only the roster-later NPC, so the earlier
NPC's position cell fails to list it. -/
theorem occupancy_mismatch_after_batch :
    ¬ occupancyMatches exBatch.grid exBatch.attendees := by
  decide

/-- Claim C2 (amended): a tick's resynchronization produces an exactly
matching occupancy index whenever attendee positions are pairwise distinct
(the NPC batch can violate this, whence the hypothesis), and an applied
user move preserves an exact match, given unique ids, in-bounds positions
and the component's 15×30 grid shape. -/
theorem occupancy_exact_after_resync_and_user_move
    (g : Grid) (atts : List AttendeeType) (s : WorldState) (d : Direction)
    (hwfg : gridWF g)
    (hdist : atts.Pairwise (fun p q => p.position ≠ q.position))
    (hwfs : gridWF s.grid)
    (hids : (s.attendees.map (fun a => a.id)).Nodup)
    (hin : ∀ a ∈ s.attendees, inBounds a.position)
    (hm : occupancyMatches s.grid s.attendees) :
    occupancyMatches (updateGridOccupation g atts) atts ∧
    occupancyMatches (movePlayer s d).grid (movePlayer s d).attendees :=
  ⟨resync_matches g atts hwfg hdist,
   movePlayer_preserves_matches s d hwfs hids hin hm⟩

/-- Witness for the amended C2: the fixture roster resynchronized onto the
carpet grid, and the user's applied `down` move on the fixture state. -/
theorem occupancy_exact_witness :
    occupancyMatches (updateGridOccupation baseCarpetGrid wAtts) wAtts ∧
    occupancyMatches (movePlayer wState Direction.down).grid
      (movePlayer wState Direction.down).attendees :=
  occupancy_exact_after_resync_and_user_move baseCarpetGrid wAtts wState
    Direction.down (by decide) (by decide) (by decide) (by decide)
    (by decide) (by decide)

end SeatChase
